import Mathlib

/-!
Shallow embedding of the heuristic license classifier of `app.py`
(`_normalize_text`, `classify_license_from_metadata` and the keyword /
label constant tables), together with proofs about it.

Python strings are modelled by Lean `String`; `str.lower()` is modelled
on the ASCII range (every text and keyword this development evaluates is
ASCII apart from the copyright symbols, which both implementations leave
unchanged).  Python floats are modelled by `ℚ`: every confidence value the
classifier produces is an exact multiple of 1/100, where the binary
floating-point computation and the exact rational one round identically
at two decimals.
-/

/-- The twenty-six upper-case ASCII letters paired with their lower-case
forms. -/
def upperLower : List (Char × Char) :=
  [('A', 'a'), ('B', 'b'), ('C', 'c'), ('D', 'd'), ('E', 'e'), ('F', 'f'),
   ('G', 'g'), ('H', 'h'), ('I', 'i'), ('J', 'j'), ('K', 'k'), ('L', 'l'),
   ('M', 'm'), ('N', 'n'), ('O', 'o'), ('P', 'p'), ('Q', 'q'), ('R', 'r'),
   ('S', 's'), ('T', 't'), ('U', 'u'), ('V', 'v'), ('W', 'w'), ('X', 'x'),
   ('Y', 'y'), ('Z', 'z')]

/-- ASCII model of Python `str.lower` on a single character: the
twenty-six upper-case letters map to their lower-case forms and every
other character is unchanged. -/
def lowerChar (c : Char) : Char :=
  ((upperLower.find? (fun p => p.1 = c)).map Prod.snd).getD c

/-- Model of Python `str.lower()`. -/
def lowerStr (s : String) : String :=
  String.mk (s.data.map lowerChar)

/-- Test `listPrefixB n h` : does the character list `n` occur as a prefix of `h`? -/
def listPrefixB : List Char → List Char → Bool
  | [], _ => true
  | _ :: _, [] => false
  | a :: as, b :: bs => a = b && listPrefixB as bs

/-- Test `containsSub n h` : does the character list `n` occur as a contiguous
substring of `h`?  Models Python `n in h` on strings. -/
def containsSub (n : List Char) : List Char → Bool
  | [] => n.isEmpty
  | c :: rest => listPrefixB n (c :: rest) || containsSub n rest

/-- Model of the Python substring test `needle in hay`. -/
def strIn (needle hay : String) : Bool :=
  containsSub needle.data hay.data

/-- Model of Python `sep.join(l)` for a list of strings. -/
def joinWith (sep : String) : List String → String
  | [] => ""
  | [s] => s
  | s :: t :: rest => s ++ sep ++ joinWith sep (t :: rest)

/-- A Python value as it may arrive in a text field of the classifier:
`None`, a string, a non-string scalar (modelled by an integer), or a
(possibly nested) list of such values, encoded by `vNil` / `vCons`. -/
inductive Value where
  | vNone : Value
  | vStr : String → Value
  | vInt : Int → Value
  | vNil : Value
  | vCons : Value → Value → Value
deriving DecidableEq

/-- A Lean list of values as a `Value` list (Python `list(texts)`). -/
def listToValue : List Value → Value
  | [] => Value.vNil
  | v :: vs => Value.vCons v (listToValue vs)

/-- Function `_normalize_text` of app.py: falsy values (None, the empty string,
zero, the empty list) become `""`; a list is normalized elementwise and
space-joined; any other scalar is stringified and lower-cased.  The final
catch-all handles cons cells whose tail is not a list; they never arise
from `listToValue`, whose tails are always `vNil` or `vCons`. -/
def _normalize_text : Value → String
  | Value.vNone => ""
  | Value.vStr s => if s = "" then "" else lowerStr s
  | Value.vInt n => if n = 0 then "" else lowerStr (toString n)
  | Value.vNil => ""
  | Value.vCons v Value.vNil => _normalize_text v
  | Value.vCons v (Value.vCons w t) =>
      _normalize_text v ++ " " ++ _normalize_text (Value.vCons w t)
  | Value.vCons v _ => _normalize_text v

/-- Constant `POSITIVE_LICENSE_KEYWORDS` of app.py. -/
def POSITIVE_LICENSE_KEYWORDS : List String :=
  ["royalty free", "royalty-free", "free to use", "free use", "creative commons",
   "cc0", "cc 0", "public domain", "no copyright", "copyright free",
   "free for commercial", "free for monetization", "youtube safe", "license free",
   "ncs", "nocopyrightsounds", "chillhop records", "chillhop music", "copyright-free"]

/-- Constant `NEGATIVE_LICENSE_KEYWORDS` of app.py (the source list literally
contains `'wmg'` three times and the mixed-case entry `'smE'`). -/
def NEGATIVE_LICENSE_KEYWORDS : List String :=
  ["©", "℗", "(c) ", "(p) ", "all rights reserved", "under exclusive license",
   "exclusive license", "licensed to", "unauthorized", "broadcast prohibited",
   "for promotional use only", "not for resale", "umg", "universal music", "sony",
   "warner", "wmg", "wmg", "smE", "sony music entertainment", "wmg", "atlantic records",
   "columbia records", "rca records", "def jam", "republic records", "interscope"]

/-- Constant `POSITIVE_LABELS` of app.py (a set in the source; membership is all
that is ever used of it). -/
def POSITIVE_LABELS : List String :=
  ["ncs", "nocopyrightsounds", "chillhop records", "chillhop music"]

/-- The `signals` dictionary of a verdict. -/
structure Signals where
  positive : List String
  negative : List String
deriving DecidableEq

/-- The dictionary returned by `classify_license_from_metadata`. -/
structure Verdict where
  is_free : Bool
  confidence : ℚ
  signals : Signals
  reason : String
deriving DecidableEq

/-- Python `round(q, 2)` on the exact rationals this development uses
(every value rounded is an exact multiple of 1/100, where `round` is
unambiguous). -/
def roundTo2 (q : ℚ) : ℚ :=
  ((round (q * 100) : ℤ) : ℚ) / 100

/-- The local `positives` of `classify_license_from_metadata`:
`[kw for kw in POSITIVE_LICENSE_KEYWORDS if kw in blob]`. -/
def positivesOf (blob : String) : List String :=
  POSITIVE_LICENSE_KEYWORDS.filter (fun kw => strIn kw blob)

/-- The local `negatives`: `[kw for kw in NEGATIVE_LICENSE_KEYWORDS if kw in blob]`. -/
def negativesOf (blob : String) : List String :=
  NEGATIVE_LICENSE_KEYWORDS.filter (fun kw => strIn kw blob)

/-- The local `positive_label_hit`: `any(lbl in blob for lbl in POSITIVE_LABELS)`. -/
def positiveLabelHit (blob : String) : Bool :=
  POSITIVE_LABELS.any (fun lbl => strIn lbl blob)

/-- The local `negative_weight`: `0.5 if positive_label_hit else 1.0`. -/
def negativeWeight (blob : String) : ℚ :=
  if positiveLabelHit blob then 1/2 else 1

/-- The local `score`: `len(positives) - (negative_weight * len(negatives))`. -/
def scoreOf (blob : String) : ℚ :=
  ((positivesOf blob).length : ℚ) - negativeWeight blob * ((negativesOf blob).length : ℚ)

/-- The local `is_free`: `score > 0 or positive_label_hit`. -/
def isFreeOf (blob : String) : Bool :=
  decide ((0 : ℚ) < scoreOf blob) || positiveLabelHit blob

/-- The local `confidence` before rounding: `0.9 if is_free else 0.7` on a
positive-label hit, `0.4` with no signals at all, else
`max(0.35, min(0.9, 0.55 + 0.08*len(positives) - 0.05*len(negatives)))`. -/
def rawConfidenceOf (blob : String) : ℚ :=
  if positiveLabelHit blob then
    (if isFreeOf blob then 9/10 else 7/10)
  else if (positivesOf blob).length + (negativesOf blob).length = 0 then
    4/10
  else
    max (35/100)
      (min (9/10)
        (55/100 + (8 : ℚ)/100 * ((positivesOf blob).length : ℚ)
          - (5 : ℚ)/100 * ((negativesOf blob).length : ℚ)))

/-- The local `reason` string of `classify_license_from_metadata`. -/
def reasonOf (blob : String) : String :=
  if (positivesOf blob).isEmpty && (negativesOf blob).isEmpty && !positiveLabelHit blob then
    "No clear signals detected."
  else
    "Signals → positive: "
      ++ (if (positivesOf blob).isEmpty then
            (if positiveLabelHit blob then "label whitelisted" else "none")
          else joinWith ", " (positivesOf blob))
      ++ "; negative: "
      ++ (if (negativesOf blob).isEmpty then "none" else joinWith ", " (negativesOf blob))
      ++ "."

/-- The dictionary built at the end of `classify_license_from_metadata`,
as a function of the blob (the function body uses its arguments only
through `blob`). -/
def classifyBlob (blob : String) : Verdict :=
  { is_free := isFreeOf blob
    confidence := roundTo2 (rawConfidenceOf blob)
    signals :=
      { positive := positivesOf blob ++ (if positiveLabelHit blob then ["label match"] else [])
        negative := negativesOf blob }
    reason := reasonOf blob }

/-- The blob: `_normalize_text(list(texts))`. -/
def blobOf (texts : List Value) : String :=
  _normalize_text (listToValue texts)

/-- Function `classify_license_from_metadata(*texts)` of app.py. -/
def classify_license_from_metadata (texts : List Value) : Verdict :=
  classifyBlob (blobOf texts)

/-- Modelled from the spec: the release-date parser of §4.4 / §6, which is
absent from the classifier revision in src/app.py.  The leading
hyphen-delimited segment of the date string is parsed as an integer year;
anything unparseable yields `none`. -/
def parseLeadingYear (s : String) : Option Int :=
  let seg := s.data.takeWhile (fun c => c ≠ '-')
  if seg = [] then none
  else if seg.all (fun c => c.isDigit) then
    some ((seg.foldl (fun acc c => acc * 10 + (c.toNat - 48)) 0 : ℕ) : ℤ)
  else none

/-- Modelled from the spec: does the public-domain date rule of §4.4 fire
for this optional release date (leading year parses and is < 1923)? -/
def publicDomainHit : Option String → Bool
  | none => false
  | some s =>
    match parseLeadingYear s with
    | some y => decide (y < 1923)
    | none => false

/-- Modelled from the spec: the classifier with the public-domain date
rule of §4.4–§4.5 step 1 in front, which is absent from the revision in
src/app.py.  A parsed year < 1923 forces a free verdict with confidence
0.95; otherwise (including an absent or unparseable date) the rule
contributes nothing and the src classifier decides. -/
def classifyWithDate (texts : List Value) : Option String → Verdict
  | none => classify_license_from_metadata texts
  | some s =>
    match parseLeadingYear s with
    | some y =>
        if y < 1923 then
          { is_free := true
            confidence := 95/100
            signals := { positive := ["public domain (pre-1923)"], negative := [] }
            reason := "Public domain: released " ++ toString y ++ " (before 1923)." }
        else classify_license_from_metadata texts
    | none => classify_license_from_metadata texts

/-- Modelled from the spec: the `status` field of §3 / §4.5 step 5, absent
from the verdict of the revision in src/app.py — `"unsure"` when the
confidence is below 0.45, else `"free"` / `"copyrighted"` per `is_free`. -/
def status_of (is_free : Bool) (confidence : ℚ) : String :=
  if confidence < 45/100 then "unsure"
  else if is_free then "free" else "copyrighted"

/-- The confidence the spec's §4.5 step 2 assigns to a positive-label hit,
written from the spec's words for comparison with the code:
`min(0.95, 0.75 + min(0.20, positive_label_weight_sum))`. -/
def specLabelConfidence (positive_label_weight_sum : ℚ) : ℚ :=
  min (95/100) (75/100 + min (20/100) positive_label_weight_sum)

/-- Structural validity of a verdict: confidence within the documented
interval and a non-empty reason string. -/
def structurallyValid (v : Verdict) : Prop :=
  35/100 ≤ v.confidence ∧ v.confidence ≤ 95/100 ∧ v.reason ≠ ""

/-! ### Helper lemmas -/

theorem data_append (a b : String) : (a ++ b).data = a.data ++ b.data := by
  cases a
  cases b
  rfl

theorem roundTo2_intDiv (k : ℤ) : roundTo2 ((k : ℚ)/100) = (k : ℚ)/100 := by
  unfold roundTo2
  rw [div_mul_cancel₀, round_intCast]
  norm_num

theorem div100_le_div100 {a b : ℤ} (h : a ≤ b) : (a : ℚ)/100 ≤ (b : ℚ)/100 := by
  apply div_le_div_of_nonneg_right
  · exact_mod_cast h
  · norm_num

theorem min_div100 (a b : ℤ) :
    min ((a : ℚ)/100) ((b : ℚ)/100) = ((min a b : ℤ) : ℚ)/100 := by
  rcases le_total a b with h | h
  · rw [min_eq_left (div100_le_div100 h), min_eq_left h]
  · rw [min_eq_right (div100_le_div100 h), min_eq_right h]

theorem max_div100 (a b : ℤ) :
    max ((a : ℚ)/100) ((b : ℚ)/100) = ((max a b : ℤ) : ℚ)/100 := by
  rcases le_total a b with h | h
  · rw [max_eq_right (div100_le_div100 h), max_eq_right h]
  · rw [max_eq_left (div100_le_div100 h), max_eq_left h]

theorem rawConfidenceOf_eq_div (blob : String) :
    ∃ k : ℤ, rawConfidenceOf blob = (k : ℚ)/100 ∧ 35 ≤ k ∧ k ≤ 95 := by
  unfold rawConfidenceOf
  split_ifs with h1 h2 h3
  · exact ⟨90, by norm_num, by norm_num, by norm_num⟩
  · exact ⟨70, by norm_num, by norm_num, by norm_num⟩
  · exact ⟨40, by norm_num, by norm_num, by norm_num⟩
  · set p : ℤ := ((positivesOf blob).length : ℤ) with hp
    set n : ℤ := ((negativesOf blob).length : ℤ) with hn
    refine ⟨max 35 (min 90 (55 + 8 * p - 5 * n)), ?_, le_max_left _ _, ?_⟩
    · have hbase : 55/100 + (8 : ℚ)/100 * ((positivesOf blob).length : ℚ)
          - (5 : ℚ)/100 * ((negativesOf blob).length : ℚ)
          = ((55 + 8 * p - 5 * n : ℤ) : ℚ)/100 := by
        push_cast [hp, hn]
        ring
      rw [hbase]
      have h9 : (9 : ℚ)/10 = ((90 : ℤ) : ℚ)/100 := by norm_num
      have h35 : (35 : ℚ)/100 = ((35 : ℤ) : ℚ)/100 := by norm_num
      rw [h9, h35, min_div100, max_div100]
    · apply max_le
      · norm_num
      · calc min 90 (55 + 8 * p - 5 * n) ≤ 90 := min_le_left _ _
          _ ≤ 95 := by norm_num

theorem classifyBlob_is_free (blob : String) :
    (classifyBlob blob).is_free = isFreeOf blob := rfl

theorem classifyBlob_confidence (blob : String) :
    (classifyBlob blob).confidence = roundTo2 (rawConfidenceOf blob) := rfl

theorem classifyBlob_signals_positive (blob : String) :
    (classifyBlob blob).signals.positive
      = positivesOf blob ++ (if positiveLabelHit blob then ["label match"] else []) := rfl

theorem classifyBlob_signals_negative (blob : String) :
    (classifyBlob blob).signals.negative = negativesOf blob := rfl

theorem classifyBlob_reason (blob : String) :
    (classifyBlob blob).reason = reasonOf blob := rfl

theorem isFreeOf_of_hit {blob : String} (h : positiveLabelHit blob = true) :
    isFreeOf blob = true := by
  unfold isFreeOf
  rw [h, Bool.or_true]

theorem rawConfidenceOf_of_hit {blob : String} (h : positiveLabelHit blob = true) :
    rawConfidenceOf blob = 9/10 := by
  unfold rawConfidenceOf
  rw [h, isFreeOf_of_hit h]
  simp

theorem confidence_of_hit {blob : String} (h : positiveLabelHit blob = true) :
    (classifyBlob blob).confidence = 9/10 := by
  rw [classifyBlob_confidence, rawConfidenceOf_of_hit h]
  have h9 : (9 : ℚ)/10 = ((90 : ℤ) : ℚ)/100 := by norm_num
  rw [h9, roundTo2_intDiv]

theorem isFreeOf_of_no_hit {blob : String} (h : positiveLabelHit blob = false) :
    isFreeOf blob = decide ((negativesOf blob).length < (positivesOf blob).length) := by
  unfold isFreeOf scoreOf negativeWeight
  rw [h]
  simp only [Bool.false_eq_true, if_false, Bool.or_false, one_mul]
  rw [decide_eq_decide, sub_pos, Nat.cast_lt]

/-! ### Claim theorems -/

/-- C1 (counterexample): at the input bundle `("Track", "Artist", "NCS", "")`
a positive-label entry occurs, yet the returned confidence is 0.9 and not
the spec's `min(0.95, 0.75 + min(0.20, w))`, which at the spec's stated
weight 0.25 for "ncs" equals 0.95. -/
theorem C1_counterexample :
    positiveLabelHit (blobOf [Value.vStr "Track", Value.vStr "Artist", Value.vStr "NCS", Value.vStr ""]) = true
    ∧ (classify_license_from_metadata
        [Value.vStr "Track", Value.vStr "Artist", Value.vStr "NCS", Value.vStr ""]).confidence = 9/10
    ∧ specLabelConfidence (25/100) = 95/100
    ∧ ((9 : ℚ)/10) ≠ 95/100 := by
  refine ⟨by decide, ?_, ?_, by norm_num⟩
  · exact confidence_of_hit (by decide)
  · unfold specLabelConfidence
    rw [min_eq_left (by norm_num : (20 : ℚ)/100 ≤ 25/100)]
    rw [min_eq_left (by norm_num : (95 : ℚ)/100 ≤ 75/100 + 20/100)]

/-- C1 (amended): whenever an entry of the positive-label set occurs in
the blob, the classifier returns `is_free = true` regardless of the
keyword score, with confidence 0.9. -/
theorem C1_label_hit_forces_free (ts : List Value)
    (h : positiveLabelHit (blobOf ts) = true) :
    (classify_license_from_metadata ts).is_free = true
    ∧ (classify_license_from_metadata ts).confidence = 9/10 := by
  unfold classify_license_from_metadata
  exact ⟨by rw [classifyBlob_is_free, isFreeOf_of_hit h], confidence_of_hit h⟩

/-- Witness for C1: the amended claim at the concrete bundle
`("My Song", "NoCopyrightSounds", "")`, whose blob contains the positive
label "nocopyrightsounds" while a negative keyword is absent. -/
theorem C1_witness :
    positiveLabelHit (blobOf [Value.vStr "My Song", Value.vStr "NoCopyrightSounds", Value.vStr ""]) = true
    ∧ (classify_license_from_metadata
        [Value.vStr "My Song", Value.vStr "NoCopyrightSounds", Value.vStr ""]).is_free = true
    ∧ (classify_license_from_metadata
        [Value.vStr "My Song", Value.vStr "NoCopyrightSounds", Value.vStr ""]).confidence = 9/10 := by
  refine ⟨by decide, ?_, ?_⟩
  · exact (C1_label_hit_forces_free _ (by decide)).1
  · exact (C1_label_hit_forces_free _ (by decide)).2

/-- C7 (counterexample): the two bundles `("free", "use")` and
`("use", "free")` are permutations of one another, yet the first is
classified free (the keyword "free use" spans the field boundary) and the
second is not. -/
theorem C7_counterexample :
    ([Value.vStr "use", Value.vStr "free"] : List Value).Perm [Value.vStr "free", Value.vStr "use"]
    ∧ (classify_license_from_metadata [Value.vStr "free", Value.vStr "use"]).is_free = true
    ∧ (classify_license_from_metadata [Value.vStr "use", Value.vStr "free"]).is_free = false := by
  refine ⟨List.Perm.swap _ _ _, ?_, ?_⟩
  · unfold classify_license_from_metadata
    rw [classifyBlob_is_free, isFreeOf_of_no_hit (by decide)]
    decide
  · unfold classify_license_from_metadata
    rw [classifyBlob_is_free, isFreeOf_of_no_hit (by decide)]
    decide

/-- C7 (amended): the verdict is a function of the normalized blob alone,
so any two bundles — permutations of one another or not — that produce
the same blob receive identical verdicts; permutations that change the
blob can change the verdict. -/
theorem C7_blob_determines_verdict (ts₁ ts₂ : List Value)
    (h : blobOf ts₁ = blobOf ts₂) :
    classify_license_from_metadata ts₁ = classify_license_from_metadata ts₂ := by
  unfold classify_license_from_metadata
  rw [h]

/-- Witness for C7: `["a b"]` and `["a", "b"]` have the same blob and the
theorem yields identical verdicts. -/
theorem C7_witness :
    blobOf [Value.vStr "a b"] = blobOf [Value.vStr "a", Value.vStr "b"]
    ∧ classify_license_from_metadata [Value.vStr "a b"]
        = classify_license_from_metadata [Value.vStr "a", Value.vStr "b"] :=
  ⟨by decide, C7_blob_determines_verdict _ _ (by decide)⟩

/-- C8 (code evidence): on the bundle `("wmg",)` the negative signal list
is `["wmg", "wmg", "wmg"]` — the same keyword three times — because
`NEGATIVE_LICENSE_KEYWORDS` itself lists `'wmg'` three times. -/
theorem C8_duplicate_negative_keyword :
    (classify_license_from_metadata [Value.vStr "wmg"]).signals.negative = ["wmg", "wmg", "wmg"]
    ∧ ¬ (classify_license_from_metadata [Value.vStr "wmg"]).signals.negative.Nodup := by
  constructor
  · decide
  · decide

/-- C10: a positive-label hit forces `is_free = true`, so the `0.7`
confidence branch guarded by `not is_free` is unreachable and the
returned confidence is exactly 0.9 (never 0.7). -/
theorem C10_label_confidence (ts : List Value)
    (h : positiveLabelHit (blobOf ts) = true) :
    (classify_license_from_metadata ts).confidence = 9/10
    ∧ (classify_license_from_metadata ts).confidence ≠ 7/10 := by
  unfold classify_license_from_metadata
  refine ⟨confidence_of_hit h, ?_⟩
  rw [confidence_of_hit h]
  norm_num

/-- Witness for C10 at the concrete bundle `("Track", "Chillhop Records")`. -/
theorem C10_witness :
    positiveLabelHit (blobOf [Value.vStr "Track", Value.vStr "Chillhop Records"]) = true
    ∧ (classify_license_from_metadata [Value.vStr "Track", Value.vStr "Chillhop Records"]).confidence = 9/10 :=
  ⟨by decide, (C10_label_confidence _ (by decide)).1⟩


/-- C2: with no public-domain date signal and no label-dictionary hit the
decision falls back to the keyword score: `is_free` holds exactly when
(count of positive keyword hits) − (count of negative keyword hits) > 0.
The date rule is modelled from the spec; the fallback itself is the
src classifier. -/
theorem C2_keyword_fallback (ts : List Value) (rd : Option String)
    (hpd : publicDomainHit rd = false)
    (hh : positiveLabelHit (blobOf ts) = false) :
    (classifyWithDate ts rd).is_free
      = decide ((0 : ℤ) < ((positivesOf (blobOf ts)).length : ℤ)
          - ((negativesOf (blobOf ts)).length : ℤ)) := by
  have hbase : (classify_license_from_metadata ts).is_free
      = decide ((0 : ℤ) < ((positivesOf (blobOf ts)).length : ℤ)
          - ((negativesOf (blobOf ts)).length : ℤ)) := by
    unfold classify_license_from_metadata
    rw [classifyBlob_is_free, isFreeOf_of_no_hit hh, decide_eq_decide]
    rw [sub_pos, Int.ofNat_lt]
  cases rd with
  | none => exact hbase
  | some s =>
    cases hps : parseLeadingYear s with
    | none =>
      simp only [classifyWithDate, hps]
      exact hbase
    | some y =>
      have hy : ¬ (y < 1923) := by
        have h2 := hpd
        simp only [publicDomainHit, hps, decide_eq_false_iff_not] at h2
        exact h2
      simp only [classifyWithDate, hps]
      rw [if_neg hy]
      exact hbase

/-- Witness for C2: the bundle `("sony all rights reserved",)` with no
release date has no label hit, two negative hits, no positive hit, and
the theorem decides its `is_free`. -/
theorem C2_witness :
    publicDomainHit none = false
    ∧ positiveLabelHit (blobOf [Value.vStr "sony all rights reserved"]) = false
    ∧ (classifyWithDate [Value.vStr "sony all rights reserved"] none).is_free
        = decide ((0 : ℤ) < ((positivesOf (blobOf [Value.vStr "sony all rights reserved"])).length : ℤ)
            - ((negativesOf (blobOf [Value.vStr "sony all rights reserved"])).length : ℤ)) :=
  ⟨rfl, by decide, C2_keyword_fallback _ none rfl (by decide)⟩

/-- C3 (spec-modelled): a release date whose leading segment parses as a
year < 1923 forces a free verdict with confidence 0.95 ahead of every
other rule, while an absent or unparseable release date changes nothing
about the verdict and the classifier still returns normally. -/
theorem C3_public_domain_rule (ts : List Value) (s : String) :
    (∀ y : Int, parseLeadingYear s = some y → y < 1923 →
      (classifyWithDate ts (some s)).is_free = true
      ∧ (classifyWithDate ts (some s)).confidence = 95/100)
    ∧ (parseLeadingYear s = none →
        classifyWithDate ts (some s) = classify_license_from_metadata ts)
    ∧ classifyWithDate ts none = classify_license_from_metadata ts := by
  refine ⟨?_, ?_, rfl⟩
  · intro y hy hlt
    simp only [classifyWithDate, hy]
    rw [if_pos hlt]
    exact ⟨rfl, rfl⟩
  · intro h
    simp only [classifyWithDate, h]

/-- Witness for C3 at the release date "1900-01-01" on the empty bundle. -/
theorem C3_witness :
    parseLeadingYear "1900-01-01" = some 1900
    ∧ (1900 : ℤ) < 1923
    ∧ (classifyWithDate [] (some "1900-01-01")).is_free = true
    ∧ (classifyWithDate [] (some "1900-01-01")).confidence = 95/100 :=
  ⟨by decide, by decide,
    ((C3_public_domain_rule [] "1900-01-01").1 1900 (by decide) (by decide)).1,
    ((C3_public_domain_rule [] "1900-01-01").1 1900 (by decide) (by decide)).2⟩

/-- C4: with no positive keyword, no negative keyword and no label hit
the verdict is not-free with confidence 0.4, both signal lists empty, the
literal reason "No clear signals detected.", and (status modelled from
the spec, since the src revision returns no status field) status
"unsure". -/
theorem C4_no_signal_default (ts : List Value)
    (hp : positivesOf (blobOf ts) = [])
    (hn : negativesOf (blobOf ts) = [])
    (hh : positiveLabelHit (blobOf ts) = false) :
    (classify_license_from_metadata ts).is_free = false
    ∧ (classify_license_from_metadata ts).confidence = 4/10
    ∧ status_of (classify_license_from_metadata ts).is_free
        (classify_license_from_metadata ts).confidence = "unsure"
    ∧ (classify_license_from_metadata ts).signals.positive = []
    ∧ (classify_license_from_metadata ts).signals.negative = []
    ∧ (classify_license_from_metadata ts).reason = "No clear signals detected." := by
  unfold classify_license_from_metadata
  have hfree : (classifyBlob (blobOf ts)).is_free = false := by
    rw [classifyBlob_is_free, isFreeOf_of_no_hit hh, hp, hn]
    decide
  have hconf : (classifyBlob (blobOf ts)).confidence = 4/10 := by
    rw [classifyBlob_confidence]
    unfold rawConfidenceOf
    rw [hh, hp, hn]
    simp only [Bool.false_eq_true, if_false, List.length_nil, Nat.add_zero, if_pos]
    have h4 : (4 : ℚ)/10 = ((40 : ℤ) : ℚ)/100 := by norm_num
    rw [h4, roundTo2_intDiv]
  refine ⟨hfree, hconf, ?_, ?_, ?_, ?_⟩
  · rw [hfree, hconf]
    unfold status_of
    rw [if_pos (by norm_num : (4 : ℚ)/10 < 45/100)]
  · rw [classifyBlob_signals_positive, hp, hh]
    simp
  · rw [classifyBlob_signals_negative, hn]
  · rw [classifyBlob_reason]
    unfold reasonOf
    rw [hp, hn, hh]
    simp

/-- Witness for C4 at the empty bundle. -/
theorem C4_witness :
    positivesOf (blobOf []) = []
    ∧ negativesOf (blobOf []) = []
    ∧ positiveLabelHit (blobOf []) = false
    ∧ (classify_license_from_metadata []).is_free = false
    ∧ (classify_license_from_metadata []).confidence = 4/10
    ∧ (classify_license_from_metadata []).reason = "No clear signals detected." :=
  ⟨by decide, by decide, by decide,
    (C4_no_signal_default [] (by decide) (by decide) (by decide)).1,
    (C4_no_signal_default [] (by decide) (by decide) (by decide)).2.1,
    (C4_no_signal_default [] (by decide) (by decide) (by decide)).2.2.2.2.2⟩

theorem classifyBlob_confidence_bounds (blob : String) :
    35/100 ≤ (classifyBlob blob).confidence
    ∧ (classifyBlob blob).confidence ≤ 95/100
    ∧ roundTo2 (classifyBlob blob).confidence = (classifyBlob blob).confidence := by
  obtain ⟨k, hk, h35, h95⟩ := rawConfidenceOf_eq_div blob
  rw [classifyBlob_confidence, hk, roundTo2_intDiv]
  refine ⟨?_, ?_, roundTo2_intDiv k⟩
  · calc (35 : ℚ)/100 = ((35 : ℤ) : ℚ)/100 := by norm_num
      _ ≤ ((k : ℤ) : ℚ)/100 := div100_le_div100 h35
  · calc ((k : ℤ) : ℚ)/100 ≤ ((95 : ℤ) : ℚ)/100 := div100_le_div100 h95
      _ = 95/100 := by norm_num

theorem append_ne_empty_left (s t : String) (h : s ≠ "") : s ++ t ≠ "" := by
  intro hc
  apply h
  have hd := congrArg String.data hc
  rw [data_append, show ("" : String).data = ([] : List Char) from rfl] at hd
  exact congrArg String.mk (List.append_eq_nil.mp hd).1

theorem reasonOf_ne_empty (blob : String) : reasonOf blob ≠ "" := by
  unfold reasonOf
  split_ifs
  · decide
  all_goals exact append_ne_empty_left _ _ (append_ne_empty_left _ _ (append_ne_empty_left _ _ (append_ne_empty_left _ _ (by decide))))

/-- C5: for every input bundle the returned confidence lies in
[0.35, 0.95] and is a fixed point of rounding to two decimals. -/
theorem C5_confidence_bounds (ts : List Value) :
    35/100 ≤ (classify_license_from_metadata ts).confidence
    ∧ (classify_license_from_metadata ts).confidence ≤ 95/100
    ∧ roundTo2 (classify_license_from_metadata ts).confidence
        = (classify_license_from_metadata ts).confidence := by
  unfold classify_license_from_metadata
  exact classifyBlob_confidence_bounds (blobOf ts)

/-- C6: the classifier is a total function on arbitrary bundles —
including absent (`None`), empty, nested-list and non-string fields — and
always returns a structurally valid verdict; absent or empty input
normalizes to the empty string. -/
theorem C6_total_and_valid :
    (∀ ts : List Value, structurallyValid (classify_license_from_metadata ts))
    ∧ _normalize_text Value.vNone = ""
    ∧ _normalize_text (Value.vStr "") = ""
    ∧ _normalize_text Value.vNil = "" := by
  refine ⟨?_, by decide, by decide, by decide⟩
  intro ts
  unfold structurallyValid classify_license_from_metadata
  obtain ⟨h1, h2, _⟩ := classifyBlob_confidence_bounds (blobOf ts)
  refine ⟨h1, h2, ?_⟩
  rw [classifyBlob_reason]
  exact reasonOf_ne_empty _

theorem mem_of_listPrefixB {a : Char} :
    ∀ {n h : List Char}, listPrefixB n h = true → a ∈ n → a ∈ h := by
  intro n
  induction n with
  | nil =>
    intro h _ ha
    exact absurd ha (List.not_mem_nil a)
  | cons x xs ih =>
    intro h hpre ha
    cases h with
    | nil => simp [listPrefixB] at hpre
    | cons b bs =>
      simp only [listPrefixB, Bool.and_eq_true, decide_eq_true_eq] at hpre
      rcases List.mem_cons.mp ha with h1 | h1
      · subst h1
        rw [hpre.1]
        exact List.mem_cons_self _ _
      · exact List.mem_cons_of_mem _ (ih hpre.2 h1)

theorem mem_of_containsSub {a : Char} {n : List Char} :
    ∀ {h : List Char}, containsSub n h = true → a ∈ n → a ∈ h := by
  intro h
  induction h with
  | nil =>
    intro hc ha
    unfold containsSub at hc
    rw [List.isEmpty_iff] at hc
    subst hc
    exact absurd ha (List.not_mem_nil a)
  | cons c rest ih =>
    intro hc ha
    unfold containsSub at hc
    rcases Bool.or_eq_true_iff.mp hc with h1 | h1
    · exact mem_of_listPrefixB h1 ha
    · exact List.mem_cons_of_mem _ (ih h1 ha)

theorem lowerChar_ne_E (c : Char) : lowerChar c ≠ 'E' := by
  by_cases hc : c = 'E'
  · subst hc
    decide
  · unfold lowerChar
    cases hf : upperLower.find? (fun p => p.1 = c) with
    | none => simpa using hc
    | some p =>
      have hall : ∀ q ∈ upperLower, q.2 ≠ 'E' := by decide
      have hp : p ∈ upperLower := List.mem_of_find?_eq_some hf
      simpa using hall p hp

theorem normalize_no_E : ∀ v : Value, 'E' ∉ (_normalize_text v).data := by
  intro v
  induction v with
  | vNone => decide
  | vStr s =>
    show 'E' ∉ (if s = "" then "" else lowerStr s).data
    split_ifs
    · decide
    · intro hmem
      rcases List.mem_map.mp hmem with ⟨c, _, hc⟩
      exact lowerChar_ne_E c hc
  | vInt n =>
    show 'E' ∉ (if n = 0 then "" else lowerStr (toString n)).data
    split_ifs
    · decide
    · intro hmem
      rcases List.mem_map.mp hmem with ⟨c, _, hc⟩
      exact lowerChar_ne_E c hc
  | vNil => decide
  | vCons v w ihv ihw =>
    cases w with
    | vNone => exact ihv
    | vStr s => exact ihv
    | vInt n => exact ihv
    | vNil => exact ihv
    | vCons a b =>
      have heq : _normalize_text (Value.vCons v (Value.vCons a b))
          = _normalize_text v ++ " " ++ _normalize_text (Value.vCons a b) := rfl
      rw [heq, data_append, data_append]
      intro hmem
      rcases List.mem_append.mp hmem with hm | hm
      · rcases List.mem_append.mp hm with hm2 | hm2
        · exact ihv hm2
        · exact absurd hm2 (by decide)
      · exact ihw hm

theorem strIn_smE_false (ts : List Value) : strIn "smE" (blobOf ts) = false := by
  cases hc : strIn "smE" (blobOf ts)
  · rfl
  · exfalso
    unfold strIn at hc
    have hmem : 'E' ∈ (blobOf ts).data := mem_of_containsSub hc (by decide)
    exact normalize_no_E (listToValue ts) hmem

/-- C9 (counterexample): the negative keyword 'smE' occurs
case-insensitively in the bundle `("smE",)` (its lower-casing is a
substring of the lower-cased blob), yet it is not reported as matched. -/
theorem C9_counterexample :
    ("smE" ∈ NEGATIVE_LICENSE_KEYWORDS)
    ∧ strIn (lowerStr "smE") (lowerStr (blobOf [Value.vStr "smE"])) = true
    ∧ "smE" ∉ (classify_license_from_metadata [Value.vStr "smE"]).signals.negative := by
  refine ⟨by decide, by decide, by decide⟩

/-- C9 (amended): a keyword of either fixed list is reported as matched
iff it occurs verbatim as a substring of the (lower-cased) blob; since
the blob contains no upper-case letter, the keyword 'smE' is never
matched by any input. -/
theorem C9_verbatim_matching (ts : List Value) :
    (∀ kw, kw ∈ POSITIVE_LICENSE_KEYWORDS →
      (kw ∈ (classify_license_from_metadata ts).signals.positive
        ↔ strIn kw (blobOf ts) = true))
    ∧ (∀ kw, kw ∈ NEGATIVE_LICENSE_KEYWORDS →
      (kw ∈ (classify_license_from_metadata ts).signals.negative
        ↔ strIn kw (blobOf ts) = true))
    ∧ strIn "smE" (blobOf ts) = false := by
  unfold classify_license_from_metadata
  refine ⟨?_, ?_, strIn_smE_false ts⟩
  · intro kw hkw
    rw [classifyBlob_signals_positive]
    constructor
    · intro hmem
      rcases List.mem_append.mp hmem with hm | hm
      · unfold positivesOf at hm
        exact (List.mem_filter.mp hm).2
      · exfalso
        cases hite : positiveLabelHit (blobOf ts) with
        | false =>
          rw [hite] at hm
          simp at hm
        | true =>
          rw [hite] at hm
          have hlm : kw = "label match" := by simpa using hm
          rw [hlm] at hkw
          exact absurd hkw (by decide)
    · intro hs
      refine List.mem_append.mpr (Or.inl ?_)
      unfold positivesOf
      exact List.mem_filter.mpr ⟨hkw, hs⟩
  · intro kw hkw
    rw [classifyBlob_signals_negative]
    unfold negativesOf
    exact ⟨fun h => (List.mem_filter.mp h).2, fun h => List.mem_filter.mpr ⟨hkw, h⟩⟩

/-- Witness for C9: the keyword "sony" on the bundle `("Sony Music",)` is
reported because it occurs verbatim in the lower-cased blob. -/
theorem C9_witness :
    ("sony" ∈ NEGATIVE_LICENSE_KEYWORDS)
    ∧ strIn "sony" (blobOf [Value.vStr "Sony Music"]) = true
    ∧ "sony" ∈ (classify_license_from_metadata [Value.vStr "Sony Music"]).signals.negative :=
  ⟨by decide, by decide,
    ((C9_verbatim_matching [Value.vStr "Sony Music"]).2.1 "sony" (by decide)).mpr (by decide)⟩
